import Mathlib

/-!
Verification of the proto-mixmaster audio pipeline.

Shallow embedding of the repository's core:
- `applyJDillaEffect` (netlify/functions/process-audio.ts): time stretch by
  nearest-neighbour resampling, bit-depth reduction, additive vinyl crackle.
  Samples are modelled as exact rationals; JavaScript `Math.round` is
  `jsRound` (round half toward positive infinity); writes past the end of a
  `Float32Array` are silently dropped, which is exactly `List.set`.
  The source fixes `swingAmount = 0.3`, `timeStretchFactor = 0.98` and
  `lofiAmount = 0.4` as local constants; they are lifted to parameters here
  so that properties can quantify over presets, and `handler` instantiates
  them at the source's values.
- `checkStatus` (apiService variant): the client-side polling loop.
- `handler`: the serverless HTTP entry point, with the decoder and encoder
  (external collaborators) abstracted as function parameters, and response
  bodies abbreviated to their payload strings.
-/

namespace ProtoMixmaster

/-- JavaScript `Math.round`: round half toward positive infinity. -/
def jsRound (q : ℚ) : ℤ := ⌊q + 1 / 2⌋

/-- `stretchedLength = Math.floor(sourceData.length * (1 / timeStretchFactor))`. -/
def stretchedLength (srcLen : ℕ) (timeStretchFactor : ℚ) : ℕ :=
  (⌊(srcLen : ℚ) * (1 / timeStretchFactor)⌋).toNat

/-- One iteration of the time-stretch loop:
`originalIndex = Math.floor(i * timeStretchFactor)`, and
`processedBuffer[i] = sourceData[originalIndex]` guarded by
`originalIndex < sourceData.length`.  A write at `i` past the end of the
buffer is a no-op (`Float32Array` semantics, matched by `List.set`). -/
def stretchWrite (sourceData : List ℚ) (timeStretchFactor : ℚ)
    (buf : List ℚ) (i : ℕ) : List ℚ :=
  let originalIndex := (⌊(i : ℚ) * timeStretchFactor⌋).toNat
  if originalIndex < sourceData.length then
    buf.set i (sourceData.getD originalIndex 0)
  else buf

/-- The time-stretch stage: a zero-initialised buffer of the input's length,
written by the loop `for i in [0, stretchedLength)`. -/
def timeStretchStage (sourceData : List ℚ) (timeStretchFactor : ℚ) : List ℚ :=
  (List.range (stretchedLength sourceData.length timeStretchFactor)).foldl
    (stretchWrite sourceData timeStretchFactor)
    (List.replicate sourceData.length 0)

/-- Bit reduction at a given bit depth:
`bitCrush = Math.pow(2, bitDepth - 1)` and every sample becomes
`Math.round(sample * bitCrush) / bitCrush`. -/
def bitReduce (bitDepth : ℤ) (buf : List ℚ) : List ℚ :=
  let bitCrush : ℚ := 2 ^ (bitDepth - 1)
  buf.map (fun s => (jsRound (s * bitCrush) : ℚ) / bitCrush)

/-- The lo-fi stage of `applyJDillaEffect`:
`bitDepth = 16 - Math.floor(10 * lofiAmount)` (no clamp in the source). -/
def dillaQuantizeStage (lofiAmount : ℚ) (buf : List ℚ) : List ℚ :=
  bitReduce (16 - ⌊10 * lofiAmount⌋) buf

/-- The crackle loop: sample `i` gains `(rand i * 2 - 1) * crackleAmplitude`,
where `rand i` is the `i`-th draw of `Math.random()`. -/
def crackleGo (crackleAmplitude : ℚ) (rand : ℕ → ℚ) : ℕ → List ℚ → List ℚ
  | _, [] => []
  | i, s :: rest =>
    (s + (rand i * 2 - 1) * crackleAmplitude) ::
      crackleGo crackleAmplitude rand (i + 1) rest

/-- The vinyl-crackle stage: `crackleAmplitude = lofiAmount * 0.01`. -/
def crackleStage (lofiAmount : ℚ) (rand : ℕ → ℚ) (buf : List ℚ) : List ℚ :=
  crackleGo (lofiAmount * (1 / 100)) rand 0 buf

/-- `applyJDillaEffect`: stretch, then bit-reduce, then crackle.
`swingAmount` is declared by the source but never used. -/
def applyJDillaEffect (swingAmount timeStretchFactor lofiAmount : ℚ)
    (rand : ℕ → ℚ) (sourceData : List ℚ) : List ℚ :=
  let processedBuffer := timeStretchStage sourceData timeStretchFactor
  let quantized := dillaQuantizeStage lofiAmount processedBuffer
  crackleStage lofiAmount rand quantized

/-- Development-mode base URL of the API (the production URL is an
environment-dependent constant; only its role as an opaque prefix matters). -/
def API_URL : String := "http://localhost:8000"

/-- `maxAttempts = 30` in `checkStatus`. -/
def maxAttempts : ℕ := 30

/-- The polling while-loop of `checkStatus`: starting at a given attempt
count with the given fuel, return the attempt index at which a response had
status `complete` (if any) together with the number of status queries made. -/
def pollLoop (responses : ℕ → String) : ℕ → ℕ → Option ℕ × ℕ
  | _, 0 => (none, 0)
  | attempts, fuel + 1 =>
    if responses attempts = "complete" then (some attempts, 1)
    else
      let r := pollLoop responses (attempts + 1) fuel
      (r.1, r.2 + 1)

/-- `checkStatus(taskId, style)`: poll the status endpoint up to
`maxAttempts` times; on a `complete` response return the audio URL for the
`taskId_style` key, otherwise raise `Processing timeout`.  The sequence of
status responses the server would give is abstracted as `responses`. -/
def checkStatus (taskId style : String) (responses : ℕ → String) :
    Except String String :=
  match (pollLoop responses 0 maxAttempts).1 with
  | some _ => Except.ok (API_URL ++ "/audio/" ++ taskId ++ "_" ++ style)
  | none => Except.error "Processing timeout"

/-- Number of status queries `checkStatus` performs against `responses`. -/
def checkStatusQueries (responses : ℕ → String) : ℕ :=
  (pollLoop responses 0 maxAttempts).2

/-- An incoming HTTP event, reduced to the fields the handler reads. -/
structure Event where
  httpMethod : String
  body : Option String
  deriving DecidableEq

/-- An HTTP response, reduced to status code and payload string. -/
structure Response where
  statusCode : ℕ
  body : String
  deriving DecidableEq

/-- The single 500 response produced by the catch-all error branch. -/
def errorResponse : Response :=
  { statusCode := 500, body := "Error processing audio file" }

/-- The serverless `handler`.  `decodeAudioData` and `encode` abstract the
external decoder and encoder collaborators; a `none` from the decoder is a
rejected decode, caught by the try/catch.  A missing or empty body
(`!event.body` is truthy for the empty string) throws before any decode.
The boolean records whether decoding/processing was reached. -/
def handler (decodeAudioData : String → Option (List ℚ))
    (encode : List ℚ → String) (rand : ℕ → ℚ) (event : Event) :
    Response × Bool :=
  if event.httpMethod ≠ "POST" then
    ({ statusCode := 405, body := "Method not allowed" }, false)
  else
    match event.body with
    | none => (errorResponse, false)
    | some b =>
      if b = "" then (errorResponse, false)
      else
        match decodeAudioData b with
        | none => (errorResponse, true)
        | some audioBuffer =>
          ({ statusCode := 200,
             body := encode (applyJDillaEffect (3 / 10) (49 / 50) (2 / 5)
               rand audioBuffer) }, true)

/-! ### Basic list lemmas -/

lemma getD_set_self (l : List ℚ) (i : ℕ) (v : ℚ) (h : i < l.length) :
    (l.set i v).getD i 0 = v := by
  simp [List.getD_eq_getElem?_getD, List.getElem?_set_self h]

lemma getD_set_ne (l : List ℚ) {i j : ℕ} (v : ℚ) (h : i ≠ j) :
    (l.set i v).getD j 0 = l.getD j 0 := by
  simp [List.getD_eq_getElem?_getD, List.getElem?_set_ne h]

lemma getD_replicate_zero (n j : ℕ) :
    (List.replicate n (0 : ℚ)).getD j 0 = 0 := by
  simp only [List.getD_eq_getElem?_getD, List.getElem?_replicate]
  split <;> rfl

/-! ### Length preservation through the pipeline -/

lemma length_stretchWrite (src : List ℚ) (f : ℚ) (buf : List ℚ) (i : ℕ) :
    (stretchWrite src f buf i).length = buf.length := by
  simp only [stretchWrite]
  split <;> simp

lemma length_foldl_stretchWrite (src : List ℚ) (f : ℚ) (l : List ℕ) :
    ∀ init : List ℚ, (l.foldl (stretchWrite src f) init).length = init.length := by
  induction l with
  | nil => intro init; rfl
  | cons i rest ih =>
    intro init
    rw [List.foldl_cons, ih, length_stretchWrite]

lemma length_timeStretchStage (src : List ℚ) (f : ℚ) :
    (timeStretchStage src f).length = src.length := by
  unfold timeStretchStage
  rw [length_foldl_stretchWrite, List.length_replicate]

lemma length_bitReduce (d : ℤ) (buf : List ℚ) :
    (bitReduce d buf).length = buf.length := by
  simp [bitReduce]

lemma length_crackleGo (amp : ℚ) (rand : ℕ → ℚ) (buf : List ℚ) :
    ∀ k : ℕ, (crackleGo amp rand k buf).length = buf.length := by
  induction buf with
  | nil => intro k; rfl
  | cons s rest ih => intro k; simp [crackleGo, ih]

lemma length_applyJDillaEffect (s f L : ℚ) (rand : ℕ → ℚ) (src : List ℚ) :
    (applyJDillaEffect s f L rand src).length = src.length := by
  unfold applyJDillaEffect dillaQuantizeStage crackleStage
  rw [length_crackleGo, length_bitReduce, length_timeStretchStage]

/-! ### Evaluating concrete floors -/

lemma floor_eq_of (q : ℚ) (z : ℤ) (h1 : (z : ℚ) ≤ q) (h2 : q < z + 1) :
    ⌊q⌋ = z :=
  Int.floor_eq_iff.mpr ⟨h1, h2⟩

/-! ### The quantization map -/

lemma jsRound_intCast (n : ℤ) : jsRound (n : ℚ) = n := by
  unfold jsRound
  rw [Int.floor_int_add, floor_eq_of (1 / 2) 0 (by norm_num) (by norm_num),
    add_zero]

lemma quant_idem (c : ℚ) (hc : c ≠ 0) (s : ℚ) :
    (jsRound ((jsRound (s * c) : ℚ) / c * c) : ℚ) / c =
      (jsRound (s * c) : ℚ) / c := by
  rw [div_mul_cancel₀ _ hc, jsRound_intCast]

/-! ### Characterizing the time-stretch loop -/

lemma stretchWrite_getD (src : List ℚ) (f : ℚ) (buf : List ℚ) (i j : ℕ)
    (hj : j < buf.length) :
    (stretchWrite src f buf i).getD j 0 =
      if i = j ∧ (⌊(i : ℚ) * f⌋).toNat < src.length
      then src.getD ((⌊(i : ℚ) * f⌋).toNat) 0
      else buf.getD j 0 := by
  simp only [stretchWrite]
  split
  · rcases eq_or_ne i j with rfl | hne
    · rw [getD_set_self _ _ _ hj]
      simp [*]
    · rw [getD_set_ne _ _ hne]
      simp [hne]
  · simp [*]

lemma foldl_stretchWrite_getD (src : List ℚ) (f : ℚ) (init : List ℚ) (j : ℕ)
    (hj : j < init.length) (n : ℕ) :
    ((List.range n).foldl (stretchWrite src f) init).getD j 0 =
      if j < n ∧ (⌊(j : ℚ) * f⌋).toNat < src.length
      then src.getD ((⌊(j : ℚ) * f⌋).toNat) 0
      else init.getD j 0 := by
  induction n with
  | zero => simp
  | succ n ih =>
    rw [List.range_succ, List.foldl_append, List.foldl_cons, List.foldl_nil,
      stretchWrite_getD src f _ n j (by rw [length_foldl_stretchWrite]; exact hj),
      ih]
    rcases eq_or_ne n j with rfl | hne
    · by_cases hc : (⌊(n : ℚ) * f⌋).toNat < src.length
      · simp [hc, Nat.lt_succ_self]
      · simp [hc]
    · have hiff : j < n + 1 ↔ j < n := by omega
      simp [hne, hiff]

lemma timeStretchStage_getD (src : List ℚ) (f : ℚ) (j : ℕ)
    (hj : j < src.length) :
    (timeStretchStage src f).getD j 0 =
      if j < stretchedLength src.length f ∧ (⌊(j : ℚ) * f⌋).toNat < src.length
      then src.getD ((⌊(j : ℚ) * f⌋).toNat) 0
      else 0 := by
  unfold timeStretchStage
  rw [foldl_stretchWrite_getD src f _ j (by simpa using hj)]
  split
  · rfl
  · exact getD_replicate_zero _ _

/-- Every output index below `stretchedLength` maps to an in-range source
index: the guard `originalIndex < sourceData.length` never fires inside the
loop's effective range. -/
lemma mapped_index_lt (srcLen : ℕ) (f : ℚ) (hf : 0 < f) (j : ℕ)
    (hj : j < stretchedLength srcLen f) :
    (⌊(j : ℚ) * f⌋).toNat < srcLen := by
  unfold stretchedLength at hj
  have h1 : (j : ℤ) + 1 ≤ ⌊(srcLen : ℚ) * (1 / f)⌋ := by
    have := Int.lt_toNat.mp hj
    omega
  have h2 : (j : ℚ) + 1 ≤ (srcLen : ℚ) / f := by
    have := Int.le_floor.mp h1
    push_cast at this
    rwa [mul_one_div] at this
  have h3 : ((j : ℚ) + 1) * f ≤ (srcLen : ℚ) := (le_div_iff₀ hf).mp h2
  have h4 : (j : ℚ) * f < (srcLen : ℚ) := by nlinarith
  have h5 : ⌊(j : ℚ) * f⌋ < (srcLen : ℤ) := Int.floor_lt.mpr (by exact_mod_cast h4)
  have h0 : 0 ≤ ⌊(j : ℚ) * f⌋ := Int.floor_nonneg.mpr (by positivity)
  exact (Int.toNat_lt h0).mpr h5

/-! ### The crackle loop, sample by sample -/

lemma crackleGo_getD (amp : ℚ) (rand : ℕ → ℚ) (buf : List ℚ) :
    ∀ k i : ℕ, i < buf.length →
      (crackleGo amp rand k buf).getD i 0 =
        buf.getD i 0 + (rand (k + i) * 2 - 1) * amp := by
  induction buf with
  | nil => intro k i hi; simp at hi
  | cons s rest ih =>
    intro k i hi
    cases i with
    | zero => simp [crackleGo]
    | succ i =>
      have hrw : k + (i + 1) = k + 1 + i := by omega
      simp only [crackleGo, List.getD_cons_succ, hrw]
      exact ih (k + 1) i (by simpa using hi)

/-! ### The empty-buffer run -/

lemma timeStretchStage_nil (f : ℚ) : timeStretchStage [] f = [] := by
  unfold timeStretchStage stretchedLength
  simp

lemma applyJDillaEffect_nil (s f L : ℚ) (rand : ℕ → ℚ) :
    applyJDillaEffect s f L rand [] = [] := by
  unfold applyJDillaEffect dillaQuantizeStage crackleStage
  rw [timeStretchStage_nil]
  rfl

/-! ### The polling loop -/

lemma pollLoop_none (responses : ℕ → String) :
    ∀ fuel start : ℕ, (∀ k, k < fuel → responses (start + k) ≠ "complete") →
      pollLoop responses start fuel = (none, fuel) := by
  intro fuel
  induction fuel with
  | zero => intro start _; rfl
  | succ fuel ih =>
    intro start h
    have h0 : responses start ≠ "complete" := by simpa using h 0 (by omega)
    have hrest := ih (start + 1) (fun k hk => by
      have := h (k + 1) (by omega)
      rwa [show start + (k + 1) = start + 1 + k by omega] at this)
    simp [pollLoop, h0, hrest]

lemma pollLoop_some (responses : ℕ → String) :
    ∀ fuel start k : ℕ, k < fuel → responses (start + k) = "complete" →
      (pollLoop responses start fuel).1 ≠ none := by
  intro fuel
  induction fuel with
  | zero => intro start k hk; omega
  | succ fuel ih =>
    intro start k hk hc
    by_cases h0 : responses start = "complete"
    · simp [pollLoop, h0]
    · cases k with
      | zero => simp at hc; exact absurd hc h0
      | succ k =>
        have := ih (start + 1) k (by omega)
          (by rwa [show start + 1 + k = start + (k + 1) by omega])
        simp [pollLoop, h0, this]

/-! ### Claim theorems -/

/-- C1 counterexample: on a 100-sample buffer with the source's own preset
(`timeStretchFactor = 0.98`), the output length is 100, not
`floor(100 / 0.98) = 102`: the output array is allocated at the input's
length, refuting the claimed length formula (even within a ±1 tolerance). -/
theorem output_length_floor_counterexample :
    (applyJDillaEffect (3 / 10) (49 / 50) (2 / 5) (fun _ => 0)
        (List.replicate 100 0)).length ≠
      (⌊((List.replicate 100 (0 : ℚ)).length : ℚ) / (49 / 50)⌋).toNat := by
  rw [length_applyJDillaEffect, List.length_replicate,
    floor_eq_of (((100 : ℕ) : ℚ) / (49 / 50)) 102 (by norm_num) (by norm_num)]
  decide

/-- C1 (amended): for every preset and every input buffer, the buffer
returned by `applyJDillaEffect` has the length of the input buffer: the
output array is allocated with the input's length and the stretch loop
cannot extend it. -/
theorem applyJDillaEffect_output_length (s f L : ℚ) (rand : ℕ → ℚ)
    (src : List ℚ) :
    (applyJDillaEffect s f L rand src).length = src.length :=
  length_applyJDillaEffect s f L rand src

/-- C2 counterexample: on a zero-length input buffer `applyJDillaEffect`
does not fail; it returns a buffer (the empty one).  No `EmptyInput` check
exists anywhere in the function. -/
theorem empty_input_no_error_counterexample :
    applyJDillaEffect (3 / 10) (49 / 50) (2 / 5) (fun _ => 0) [] = [] :=
  applyJDillaEffect_nil _ _ _ _

/-- C2 (amended): for every preset, `applyJDillaEffect` on a zero-length
input buffer returns the empty output buffer, raising no error. -/
theorem applyJDillaEffect_empty_input (s f L : ℚ) (rand : ℕ → ℚ) :
    applyJDillaEffect s f L rand [] = [] :=
  applyJDillaEffect_nil s f L rand

/-- C3: for `lofiAmount` in `[0, 1]` the bit depth used by the quantization
stage equals `16 - floor(10 * lofiAmount)` clamped to be at least 1 (on this
range the clamp never engages, so the code's unclamped formula coincides
with the clamped one), the step is `2 ^ (bitDepth - 1)`, and each output
sample is `round(sample * step) / step` of the corresponding stretched
sample. -/
theorem quantize_stage_clamped_formula (L f : ℚ) (src : List ℚ)
    (hL0 : 0 ≤ L) (hL1 : L ≤ 1) :
    16 - ⌊10 * L⌋ = max 1 (16 - ⌊10 * L⌋) ∧
    1 ≤ max 1 (16 - ⌊10 * L⌋) ∧
    dillaQuantizeStage L (timeStretchStage src f) =
      (timeStretchStage src f).map (fun s =>
        (jsRound (s * 2 ^ (max 1 (16 - ⌊10 * L⌋) - 1)) : ℚ) /
          2 ^ (max 1 (16 - ⌊10 * L⌋) - 1)) := by
  have h1 : (10 : ℚ) * L ≤ 10 := by nlinarith
  have h2 : ((⌊10 * L⌋ : ℤ) : ℚ) ≤ 10 := (Int.floor_le _).trans h1
  have hfloor : ⌊10 * L⌋ ≤ 10 := by exact_mod_cast h2
  have hmax : max 1 (16 - ⌊10 * L⌋) = 16 - ⌊10 * L⌋ := max_eq_right (by omega)
  refine ⟨hmax.symm, by omega, ?_⟩
  rw [hmax]
  rfl

/-- C3 witness: the contract instantiated at `lofiAmount = 0.4` on the
stretched one-sample buffer. -/
theorem quantize_stage_clamped_formula_witness :
    16 - ⌊10 * (2 / 5 : ℚ)⌋ = max 1 (16 - ⌊10 * (2 / 5 : ℚ)⌋) ∧
    1 ≤ max 1 (16 - ⌊10 * (2 / 5 : ℚ)⌋) ∧
    dillaQuantizeStage (2 / 5) (timeStretchStage [1] 1) =
      (timeStretchStage [1] 1).map (fun s =>
        (jsRound (s * 2 ^ (max 1 (16 - ⌊10 * (2 / 5 : ℚ)⌋) - 1)) : ℚ) /
          2 ^ (max 1 (16 - ⌊10 * (2 / 5 : ℚ)⌋) - 1)) :=
  quantize_stage_clamped_formula (2 / 5) 1 [1] (by norm_num) (by norm_num)

/-- C4 counterexample: with `timeStretchFactor = 1.5` on the input
`[0, 0, 0, 1]`, output index 2 maps to source index `floor(2 * 1.5) = 3`,
which is in range, yet the output sample is `0`, not `input[3] = 1`: the
loop stops at `stretchedLength = 2`, so in-range mapped indices beyond it
are never written. -/
theorem stretch_map_counterexample :
    (⌊(2 : ℚ) * (3 / 2)⌋).toNat < ([0, 0, 0, (1 : ℚ)]).length ∧
    (timeStretchStage [0, 0, 0, 1] (3 / 2)).getD 2 0 ≠
      ([0, 0, 0, (1 : ℚ)]).getD ((⌊(2 : ℚ) * (3 / 2)⌋).toNat) 0 := by
  have hfl : ⌊(2 : ℚ) * (3 / 2)⌋ = 3 := floor_eq_of _ 3 (by norm_num) (by norm_num)
  constructor
  · rw [hfl]; decide
  · have hsl : stretchedLength ([0, 0, 0, (1 : ℚ)]).length (3 / 2) = 2 := by
      unfold stretchedLength
      rw [show ([0, 0, 0, (1 : ℚ)]).length = 4 from rfl,
        show ((4 : ℕ) : ℚ) * (1 / (3 / 2)) = 8 / 3 by norm_num,
        floor_eq_of (8 / 3) 2 (by norm_num) (by norm_num)]
      rfl
    rw [timeStretchStage_getD [0, 0, 0, 1] (3 / 2) 2 (by decide), hsl, hfl]
    rw [show Int.toNat 3 = 3 from rfl]
    norm_num

/-- C4 (amended): for `0 < f`, every output index below
`stretchedLength = floor(len / f)` maps to an in-range source index and
receives `input[floor(i * f)]`; every output index at or beyond
`stretchedLength` (which exist only when `f > 1`, since the buffer has the
input's length) is exactly zero. -/
theorem timeStretch_characterization (src : List ℚ) (f : ℚ) (hf : 0 < f) :
    (∀ j, j < stretchedLength src.length f →
      (⌊(j : ℚ) * f⌋).toNat < src.length) ∧
    (∀ j, j < src.length →
      (timeStretchStage src f).getD j 0 =
        if j < stretchedLength src.length f
        then src.getD ((⌊(j : ℚ) * f⌋).toNat) 0
        else 0) := by
  refine ⟨fun j hj => mapped_index_lt src.length f hf j hj, fun j hj => ?_⟩
  rw [timeStretchStage_getD src f j hj]
  by_cases h : j < stretchedLength src.length f
  · simp [h, mapped_index_lt src.length f hf j h]
  · simp [h]

/-- C4 witness: the characterization instantiated at `f = 1` on `[5, 7]`,
index 0. -/
theorem timeStretch_characterization_witness :
    (timeStretchStage [5, 7] 1).getD 0 0 =
      if 0 < stretchedLength ([5, (7 : ℚ)]).length 1
      then ([5, (7 : ℚ)]).getD ((⌊((0 : ℕ) : ℚ) * 1⌋).toNat) 0
      else 0 :=
  (timeStretch_characterization [5, 7] 1 (by norm_num)).2 0 (by decide)

/-- C5: if none of the first `maxAttempts` status responses is `complete`,
`checkStatus` performs exactly `maxAttempts` status queries and raises
`Processing timeout`; if some response within the bound is `complete`, it
returns the audio URL for the `taskId_style` key. -/
theorem checkStatus_polling_contract (taskId style : String)
    (responses : ℕ → String) :
    ((∀ k, k < maxAttempts → responses k ≠ "complete") →
      checkStatus taskId style responses = Except.error "Processing timeout" ∧
      checkStatusQueries responses = maxAttempts) ∧
    (∀ k, k < maxAttempts → responses k = "complete" →
      checkStatus taskId style responses =
        Except.ok (API_URL ++ "/audio/" ++ taskId ++ "_" ++ style)) := by
  constructor
  · intro h
    have hp : pollLoop responses 0 maxAttempts = (none, maxAttempts) :=
      pollLoop_none responses maxAttempts 0 (fun k hk => by simpa using h k hk)
    refine ⟨?_, ?_⟩
    · unfold checkStatus
      rw [hp]
    · unfold checkStatusQueries
      rw [hp]
  · intro k hk hc
    have hp := pollLoop_some responses maxAttempts 0 k hk (by simpa using hc)
    unfold checkStatus
    cases ho : (pollLoop responses 0 maxAttempts).1 with
    | none => exact absurd ho hp
    | some j => rfl

/-- C5 witness: against responses that never leave `processing`, the poller
makes all 30 queries and times out. -/
theorem checkStatus_polling_contract_witness :
    checkStatus "t1" "dilla" (fun _ => "processing") =
        Except.error "Processing timeout" ∧
      checkStatusQueries (fun _ => "processing") = maxAttempts :=
  (checkStatus_polling_contract "t1" "dilla" (fun _ => "processing")).1
    (fun k _ => by decide)

/-- C6: whatever values `Math.random` returns in `[0, 1)`, the crackle
stage moves each sample by at most `0.01 * lofiAmount` in absolute value. -/
theorem crackle_stage_bound (L : ℚ) (rand : ℕ → ℚ) (buf : List ℚ)
    (hL : 0 ≤ L) (hr : ∀ i, 0 ≤ rand i ∧ rand i < 1) (i : ℕ)
    (hi : i < buf.length) :
    |(crackleStage L rand buf).getD i 0 - buf.getD i 0| ≤ 1 / 100 * L := by
  unfold crackleStage
  rw [crackleGo_getD (L * (1 / 100)) rand buf 0 i hi, zero_add,
    add_sub_cancel_left]
  rcases hr i with ⟨h0, h1⟩
  rw [abs_mul]
  have h2 : |rand i * 2 - 1| ≤ 1 := abs_le.mpr ⟨by linarith, by linarith⟩
  have h3 : |L * (1 / 100)| = L * (1 / 100) := abs_of_nonneg (by positivity)
  calc |rand i * 2 - 1| * |L * (1 / 100)|
      ≤ 1 * (L * (1 / 100)) := by
        rw [h3]
        exact mul_le_mul_of_nonneg_right h2 (by positivity)
    _ = 1 / 100 * L := by ring

/-- C6 witness: the bound instantiated at `lofiAmount = 0.4`, a one-sample
buffer and a source that always draws `1/2`. -/
theorem crackle_stage_bound_witness :
    |(crackleStage (2 / 5) (fun _ => 1 / 2) [1 / 2]).getD 0 0 -
        ([(1 : ℚ) / 2]).getD 0 0| ≤ 1 / 100 * (2 / 5) :=
  crackle_stage_bound (2 / 5) (fun _ => 1 / 2) [1 / 2] (by norm_num)
    (fun i => ⟨by norm_num, by norm_num⟩) 0 (by decide)

/-- C7: bit-depth reduction is idempotent: quantizing an already quantized
buffer at the same bit depth changes nothing, for every integer bit depth
(the step `2 ^ (bitDepth - 1)` is a nonzero rational even when the
unclamped formula would make it fractional). -/
theorem bit_reduction_idempotent (bitDepth : ℤ) (buf : List ℚ) :
    bitReduce bitDepth (bitReduce bitDepth buf) = bitReduce bitDepth buf := by
  have hc : ((2 : ℚ) ^ (bitDepth - 1)) ≠ 0 := zpow_ne_zero _ two_ne_zero
  simp only [bitReduce, List.map_map]
  congr 1
  funext s
  simp only [Function.comp_apply]
  exact quant_idem _ hc s

/-- C8: `swingAmount` is dead: two runs of `applyJDillaEffect` that differ
only in `swingAmount` (same input, same random draws, same stretch and
lo-fi parameters) produce identical output buffers. -/
theorem swing_amount_unused (s1 s2 f L : ℚ) (rand : ℕ → ℚ)
    (src : List ℚ) :
    applyJDillaEffect s1 f L rand src = applyJDillaEffect s2 f L rand src :=
  rfl

/-- C9: for every input buffer the buffer returned by `applyJDillaEffect`
has exactly the input channel's length, because the output array is
allocated with the input's length before the stretch loop runs. -/
theorem applyJDillaEffect_length_invariant (s f L : ℚ) (rand : ℕ → ℚ)
    (src : List ℚ) :
    (applyJDillaEffect s f L rand src).length = src.length :=
  length_applyJDillaEffect s f L rand src

/-- C10: a non-POST request yields a 405 response and never reaches the
decoder or the effect engine; a POST with a missing body, or whose decode
fails, yields the single 500 error response. -/
theorem handler_contract (decodeAudioData : String → Option (List ℚ))
    (encode : List ℚ → String) (rand : ℕ → ℚ) (event : Event) :
    (event.httpMethod ≠ "POST" →
      handler decodeAudioData encode rand event =
        ({ statusCode := 405, body := "Method not allowed" }, false)) ∧
    (event.httpMethod = "POST" → event.body = none →
      (handler decodeAudioData encode rand event).1 = errorResponse) ∧
    (∀ b, event.httpMethod = "POST" → event.body = some b → b ≠ "" →
      decodeAudioData b = none →
      (handler decodeAudioData encode rand event).1 = errorResponse) := by
  refine ⟨fun h => ?_, fun h hb => ?_, fun b h hb hbe hd => ?_⟩
  · simp [handler, h]
  · simp [handler, h, hb]
  · simp [handler, h, hb, hbe, hd]

/-- C10 witness: a GET request is answered 405 with no processing. -/
theorem handler_contract_witness :
    handler (fun _ => none) (fun _ => "") (fun _ => 0)
        { httpMethod := "GET", body := none } =
      ({ statusCode := 405, body := "Method not allowed" }, false) :=
  (handler_contract (fun _ => none) (fun _ => "") (fun _ => 0)
      { httpMethod := "GET", body := none }).1 (by decide)

end ProtoMixmaster
